import Mathlib

/-
  Verification of the chatmymusic backend (Express + TypeScript) against its
  natural-language specification.

  The development shallowly embeds the relevant parts of the source:
  * server/index.ts — signState / verifyState (stateless signed OAuth state),
    the /auth/callback handler, refreshAccessToken / sfetch (proxy with one
    refresh-and-retry on 401), the /spotify, /enriched/top-tracks,
    /debug/topcounts and /debug/tokens handlers, and the route registry;
  * chat.ts — compactSnapshot and the POST /chat handler;
  * src/index.ts and src/Server.ts — their route registrations.

  JavaScript dynamic values are embedded as the inductive `JsVal`; code that
  can raise (property access on null/undefined, crypto.timingSafeEqual on
  buffers of different byte length, JSON.parse) returns `Except String`.
  External library primitives (HMAC-SHA256, base64url, JSON.parse of a
  payload, the network) are parameters of the definitions; the repository's
  own logic is embedded concretely.
-/

/-! ## JavaScript values -/

/-- A JavaScript runtime value: null, undefined, booleans, numbers
(modelled as integers — the code only moves them around), strings, arrays
and plain objects (association lists, keys unique as in a live JS object). -/
inductive JsVal where
  | null
  | undef
  | bool (b : Bool)
  | num (n : Int)
  | str (s : String)
  | arr (elems : List JsVal)
  | obj (fields : List (String × JsVal))

/-- JS truthiness: null, undefined, false, 0 and "" are falsy;
objects and arrays are always truthy. -/
def jsTruthy : JsVal → Bool
  | .null => false
  | JsVal.undef => false
  | .bool b => b
  | .num n => n != 0
  | .str s => s != ""
  | .arr _ => true
  | .obj _ => true

/-- Property read on a receiver that is not null/undefined: objects look the
key up, any other primitive yields undefined (JS boxes it). -/
def getFieldPure (v : JsVal) (k : String) : JsVal :=
  match v with
  | .obj fields =>
    match fields.lookup k with
    | some w => w
    | none => JsVal.undef
  | _ => JsVal.undef

/-- Property read `v.k`: throws a TypeError when the receiver is null or
undefined, otherwise as `getFieldPure`. -/
def getField (v : JsVal) (k : String) : Except String JsVal :=
  match v with
  | .null => .error ("Cannot read properties of null (reading " ++ k ++ ")")
  | JsVal.undef => .error ("Cannot read properties of undefined (reading " ++ k ++ ")")
  | v => .ok (getFieldPure v k)

/-- Optional chaining `v?.k`: undefined when the receiver is null or
undefined, otherwise a plain (non-throwing) property read. -/
def optChain (v : JsVal) (k : String) : JsVal :=
  match v with
  | .null => JsVal.undef
  | JsVal.undef => JsVal.undef
  | v => getFieldPure v k

/-- `x || y` on JS values. -/
def jsOr (x y : JsVal) : JsVal := if jsTruthy x then x else y

/-- Truthiness of an optional string (a cookie or query value that may be
absent): absent and "" are falsy. -/
def jsTruthyStr : Option String → Bool
  | none => false
  | some s => s != ""

/-- `x || undefined` on an optional string: keeps only truthy values. -/
def jsTruthyOpt : Option String → Option String
  | none => none
  | some s => if s = "" then none else some s

/-- Whether an `Except` computation succeeded (did not throw). -/
def exceptOk {ε α : Type} : Except ε α → Bool
  | .ok _ => true
  | .error _ => false

/-! ## JSON.stringify and string conversion -/

/-- One hexadecimal digit. -/
def hexDigit (d : Nat) : Char :=
  if d < 10 then Char.ofNat (48 + d) else Char.ofNat (87 + d - 10)

/-- JSON escape of a single character, as JSON.stringify produces it. -/
def jsonEscChar (c : Char) : String :=
  if c = '"' then "\\\""
  else if c = '\\' then "\\\\"
  else if c = '\n' then "\\n"
  else if c = '\r' then "\\r"
  else if c = '\t' then "\\t"
  else if c.toNat = 8 then "\\b"
  else if c.toNat = 12 then "\\f"
  else if c.toNat < 32 then
    "\\u00" ++ String.mk [hexDigit (c.toNat / 16), hexDigit (c.toNat % 16)]
  else String.mk [c]

/-- A JSON string literal for `s`, quotes and escapes included. -/
def jsonQuote (s : String) : String :=
  "\"" ++ s.data.foldr (fun c acc => jsonEscChar c ++ acc) "" ++ "\""

mutual

/-- JSON.stringify of a value: `none` when the value is undefined (which
JSON.stringify drops from objects and has no serialization for). -/
def jsonStringifyVal : JsVal → Option String
  | .null => some ("null")
  | JsVal.undef => none
  | .bool true => some ("true")
  | .bool false => some ("false")
  | .num n => some (toString n)
  | .str s => some (jsonQuote s)
  | .arr l => some ("[" ++ String.intercalate ("," ) (jsonArrEntries l) ++ "]")
  | .obj fs => some ("\x7b" ++ String.intercalate ("," ) (jsonObjEntries fs) ++ "\x7d")

/-- Array elements: undefined serializes as null inside an array. -/
def jsonArrEntries : List JsVal → List String
  | [] => []
  | v :: rest => (jsonStringifyVal v).getD ("null") :: jsonArrEntries rest

/-- Object entries: a key whose value is undefined is omitted. -/
def jsonObjEntries : List (String × JsVal) → List String
  | [] => []
  | (k, v) :: rest =>
    match jsonStringifyVal v with
    | none => jsonObjEntries rest
    | some s => (jsonQuote k ++ ":" ++ s) :: jsonObjEntries rest

end

/-- JSON.stringify as the chat handler uses it (on an object, where it
always yields a string). -/
def jsonStringify (v : JsVal) : String :=
  (jsonStringifyVal v).getD ("undefined")

mutual

/-- JS `String(v)` — the conversion template literals apply. -/
def jsToDisplay : JsVal → String
  | .null => "null"
  | JsVal.undef => "undefined"
  | .bool true => "true"
  | .bool false => "false"
  | .num n => toString n
  | .str s => s
  | .arr l => String.intercalate ("," ) (jsJoinEntries l)
  | .obj _ => "[object Object]"

/-- Array.prototype.join(","): null and undefined become empty entries. -/
def jsJoinEntries : List JsVal → List String
  | [] => []
  | .null :: rest => "" :: jsJoinEntries rest
  | JsVal.undef :: rest => "" :: jsJoinEntries rest
  | v :: rest => jsToDisplay v :: jsJoinEntries rest

end

/-! ## String.prototype.split with a one-character separator -/

/-- JS `s.split(c)` for a single-character separator, over the character
list of `s`: `"".split(".") = [""]`, `"a.b".split(".") = ["a","b"]`. -/
def splitChar (c : Char) : List Char → List String
  | [] => [""]
  | x :: xs =>
    let rest := splitChar c xs
    if x = c then "" :: rest
    else
      match rest with
      | [] => [String.mk [x]]
      | r :: rs => (String.mk [x] ++ r) :: rs

/-! ## JS number coercion for the relational comparison `number > value` -/

/-- The value of an all-digit character run; none when a character is not a
digit or the run is empty. -/
def digitsToNat : List Char → Option Nat
  | [] => none
  | l =>
    l.foldl
      (fun acc c =>
        match acc with
        | none => none
        | some n => if c.isDigit then some (n * 10 + (c.toNat - 48)) else none)
      (some 0)

/-- JS `Number(string)` restricted to optionally signed decimal integer
literals (numbers are modelled as integers throughout): the trimmed empty
string is 0, anything non-integral is NaN (`none`). -/
def jsStrToNum (s : String) : Option Int :=
  let t := s.trim
  if t = "" then some 0
  else
    match t.data with
    | '-' :: rest => (digitsToNat rest).map (fun m => -(m : Int))
    | '+' :: rest => (digitsToNat rest).map (fun m => (m : Int))
    | l => (digitsToNat l).map (fun m => (m : Int))

/-- JS `ToNumber` of a value as `x > v` coerces it: undefined and plain
objects give NaN (`none`), null is 0, booleans 0/1, arrays go through their
join string. -/
def jsToNum : JsVal → Option Int
  | .num n => some n
  | JsVal.null => some 0
  | JsVal.undef => none
  | .bool b => some (if b then 1 else 0)
  | .str s => jsStrToNum s
  | .arr l => jsStrToNum (jsToDisplay (.arr l))
  | .obj _ => none

/-- JS `n > v` with a number on the left: false when the right side
coerces to NaN. The comparison never throws on JSON-derived values. -/
def jsGreaterNum (n : Int) (v : JsVal) : Bool :=
  match jsToNum v with
  | some m => decide (n > m)
  | none => false

/-! ## Stateless signed OAuth state (server/index.ts, signState / verifyState)

The external crypto and serialization primitives — HMAC-SHA256 with the
session secret rendered in base64url, base64url encode/decode of a string,
JSON.stringify of a state payload and JSON.parse of a string — are
parameters (`hmac`, `b64enc`, `b64dec`, `jstr`, `jparse`; JSON.parse
returns an arbitrary JS value or throws, so `jparse` lands in `JsVal`);
the repository's own logic (concatenation with ".", splitting, the
falsiness checks, the timingSafeEqual comparison, the `payload.exp` read
and the expiry comparison) is embedded concretely. -/

/-- The payload carried by the signed OAuth state. -/
structure StatePayload where
  n : String
  rt : Option String
  exp : Int
deriving DecidableEq

/-- The JS object JSON.parse gives back for a stringified payload: keys in
declaration order, `rt` present only when the payload carries it. -/
def payloadJs (p : StatePayload) : JsVal :=
  match p.rt with
  | some rt => .obj [("n", .str p.n), ("rt", .str rt), ("exp", .num p.exp)]
  | none => .obj [("n", .str p.n), ("exp", .num p.exp)]

/-- `signState`: base64url of the JSON payload, a dot, and the HMAC of that
body. -/
def signState (hmac : String → String) (jstr : StatePayload → String)
    (b64enc : String → String) (p : StatePayload) : String :=
  let body := b64enc (jstr p)
  let sig := hmac body
  body ++ "." ++ sig

/-- Node's `crypto.timingSafeEqual` on the UTF-8 buffers of two strings:
throws a RangeError when the byte lengths differ, otherwise compares. -/
def timingSafeEqual (a b : String) : Except String Bool :=
  if a.utf8ByteSize ≠ b.utf8ByteSize then
    .error ("Input buffers must have the same byte length")
  else
    .ok (a == b)

/-- `verifyState`: returns `.ok none` where the code returns null,
`.ok (some payload)` on an accepted payload (the `as StatePayload` cast has
no runtime effect, so the payload is whatever JS value JSON.parse gave
back), and `.error` where the code raises: timingSafeEqual on different
byte lengths, JSON.parse on a body that is not JSON, or the `payload.exp`
property read on a body that decodes to JSON null. `now` stands for
`Date.now()`. -/
def verifyState (hmac : String → String)
    (jparse : String → Except String JsVal) (b64dec : String → String)
    (now : Int) (state : Option String) : Except String (Option JsVal) :=
  match state with
  | none => .ok none
  | some s =>
    if s = "" then .ok none
    else
      match splitChar '.' s.data with
      | [] => .ok none
      | [_] => .ok none
      | body :: sig :: _ =>
        if body = "" ∨ sig = "" then .ok none
        else do
          let expected := hmac body
          let same ← timingSafeEqual sig expected
          if !same then pure none
          else
            match jparse (b64dec body) with
            | .error m => .error m
            | .ok payload => do
              let e ← getField payload ("exp")
              if jsGreaterNum now e then pure none else pure (some payload)

/-! ## HTTP responses, token refresh and the proxy fetch (server/index.ts) -/

/-- An upstream HTTP response, with its parsed JSON abstracted at type `α`
(`.body` is what `.text()` yields, `.json` what `.json()` yields). -/
structure HttpResp (α : Type) where
  status : Nat
  body : String
  json : α

/-- `Response.ok`: status in the 200–299 range. -/
def respOk {α : Type} (r : HttpResp α) : Bool :=
  200 ≤ r.status && r.status < 300

/-- The fields the code reads from a token-endpoint JSON body. -/
structure TokenJson where
  access_token : Option String
  refresh_token : Option String
deriving DecidableEq

/-- `refreshAccessToken`: returns the refreshed access token (none models
both null and undefined) together with the cookies the call sets. The
token-endpoint response is the parameter `resp`. -/
def refreshAccessToken (refreshCookie : Option String)
    (resp : HttpResp TokenJson) : Option String × List (String × String) :=
  if !jsTruthyStr refreshCookie then (none, [])
  else if !respOk resp then (none, [])
  else
    let j := resp.json
    let c1 :=
      match j.access_token with
      | some a => if a != "" then [("spotify_access_token", a)] else []
      | none => []
    let c2 :=
      match j.refresh_token with
      | some r => if r != "" then [("spotify_refresh_token", r)] else []
      | none => []
    (j.access_token, c1 ++ c2)

/-- What one `sfetch` call did: its result (`.error` models a throw), and
the access tokens used for the upstream resource fetches, in order. -/
structure SfetchTrace (α : Type) where
  result : Except String α
  tokensUsed : List (Option String)
  cookiesSet : List (String × String)

/-- `sfetch`: fetch the resource with the access-token cookie; on a 401,
refresh once and retry with the refreshed token; throw when the refresh
yields no (truthy) token or the final response is not ok. `up n` is the
response to the n-th upstream resource fetch of this call. -/
def sfetch {α : Type} (accessCookie refreshCookie : Option String)
    (up : Nat → HttpResp α) (refreshResp : HttpResp TokenJson) :
    SfetchTrace α :=
  let r1 := up 0
  if r1.status = 401 then
    let refreshed := refreshAccessToken refreshCookie refreshResp
    match jsTruthyOpt refreshed.1 with
    | none => ⟨.error ("Unauthorized and refresh failed"), [accessCookie], refreshed.2⟩
    | some a =>
      let r2 := up 1
      if respOk r2 then ⟨.ok r2.json, [accessCookie, some a], refreshed.2⟩
      else ⟨.error (r2.body), [accessCookie, some a], refreshed.2⟩
  else if respOk r1 then ⟨.ok r1.json, [accessCookie], []⟩
  else ⟨.error (r1.body), [accessCookie], []⟩

/-! ## The /auth/callback handler (server/index.ts) -/

/-- How the callback handler ends. -/
inductive CallbackOutcome where
  | threw (m : String)
  | badRequest
  | exchangeFailed (body : String)
  | redirect (target : JsVal)

/-- The observable effects of one /auth/callback request. -/
structure CallbackResult where
  outcome : CallbackOutcome
  exchanged : Bool
  cookiesSet : List (String × String)

/-- Truthiness of verifyState's verdict as the callback's `!verified`
reads it: null (none) is falsy, a payload value by its own truthiness. -/
def jsTruthyVerdict : Option JsVal → Bool
  | none => false
  | some v => jsTruthy v

/-- GET /auth/callback: verify the stateless state, then exchange the code
for tokens, set the token cookies and redirect to `verified.rt ||
"/connected"`. `exchangeResp` is the token-endpoint response to the
(single possible) exchange request; `exchanged` records whether that
request was sent. -/
def authCallback (hmac : String → String)
    (jparse : String → Except String JsVal) (b64dec : String → String)
    (now : Int) (code state : Option String)
    (exchangeResp : HttpResp TokenJson) : CallbackResult :=
  match verifyState hmac jparse b64dec now state with
  | .error m => ⟨.threw m, false, []⟩
  | .ok verified =>
    if !jsTruthyStr code || !jsTruthyVerdict verified then ⟨.badRequest, false, []⟩
    else
      if !respOk exchangeResp then
        ⟨.exchangeFailed ("Token exchange failed: " ++ exchangeResp.body), true, []⟩
      else
        let tokens := exchangeResp.json
        let c1 :=
          match tokens.access_token with
          | some a => if a != "" then [("spotify_access_token", a)] else []
          | none => []
        let c2 :=
          match tokens.refresh_token with
          | some r => if r != "" then [("spotify_refresh_token", r)] else []
          | none => []
        let target :=
          match verified with
          | some p => jsOr (getFieldPure p ("rt")) (.str ("/connected"))
          | none => JsVal.str ("/connected")
        ⟨.redirect target, true, c1 ++ c2⟩

/-! ## GET /enriched/top-tracks (server/index.ts) -/

/-- An artist reference inside a top-track item. -/
structure ArtistRef where
  id : String
  name : String
deriving DecidableEq

/-- The album fields the handler projects (each may be absent). -/
structure AlbumRef where
  id : Option String
  name : Option String
  release_date : Option String
deriving DecidableEq

/-- A top-track item as the handler reads it; `artists` and `album` may be
absent (the code guards them with `?? []`, `|| []` and `?.`). -/
structure TrackItem where
  id : String
  name : String
  uri : String
  popularity : Int
  duration_ms : Int
  explicit : Bool
  album : Option AlbumRef
  artists : Option (List ArtistRef)
deriving DecidableEq

/-- An artist object from the /artists endpoint; `genres` may be absent. -/
structure ArtistFull where
  id : String
  genres : Option (List String)
deriving DecidableEq

/-- The JSON of a /me/top/tracks response (`items` may be absent). -/
structure TopJson where
  items : Option (List TrackItem)
deriving DecidableEq

/-- An output track's artist entry. -/
structure OutArtist where
  id : String
  name : String
  genres : List String
deriving DecidableEq

/-- An output track of /enriched/top-tracks. -/
structure OutTrack where
  id : String
  name : String
  uri : String
  popularity : Int
  duration_ms : Int
  explicit : Bool
  album : AlbumRef
  artists : List OutArtist
deriving DecidableEq

/-! ## Route handlers (server/index.ts) -/

/-- Bodies the embedded handlers can send. -/
inductive RespBody where
  | text (s : String)
  | jsonRaw (s : String)
  | jsonErr (msg : String)
  | jsonTracks (items : List OutTrack)
  | jsonCounts (short medium long : Nat)
  | jsonFlags (hasAccess hasRefresh : Bool)
deriving DecidableEq

/-- A response the server sends: status and body. -/
structure ServerResponse where
  status : Nat
  body : RespBody
deriving DecidableEq

/-- The shared shape of the four /spotify/* handlers (me, top-tracks,
top-artists, recent), which differ only in the upstream path and query
(absorbed by the oracle `up`): try `sfetch`, answer its JSON, and turn any
throw into a 500 whose body is `e.message || "Error"`. -/
def spotifyProxyRoute (accessCookie refreshCookie : Option String)
    (up : Nat → HttpResp String) (refreshResp : HttpResp TokenJson) :
    ServerResponse :=
  match (sfetch accessCookie refreshCookie up refreshResp).result with
  | .ok j => ⟨200, .jsonRaw j⟩
  | .error m => ⟨500, .text (if m = "" then "Error" else m)⟩

/-- GET /debug/tokens: the two presence booleans, and no cookie is set. -/
def debugTokens (accessCookie refreshCookie : Option String) :
    ServerResponse × List (String × String) :=
  (⟨200, .jsonFlags (jsTruthyStr accessCookie) (jsTruthyStr refreshCookie)⟩, [])

/-- `Array.from(new Set(xs))`: deduplicate keeping the first occurrence of
each element, in insertion order. -/
def eraseDupsGo {α : Type} [DecidableEq α] (seen : List α) : List α → List α
  | [] => []
  | x :: xs =>
    if x ∈ seen then eraseDupsGo seen xs else x :: eraseDupsGo (x :: seen) xs

/-- Deduplication keeping first occurrences. -/
def eraseDups {α : Type} [DecidableEq α] (l : List α) : List α :=
  eraseDupsGo [] l

/-- The batching loop `for (let i = 0; i < ids.length; i += 50)`: slices of
at most 50 elements. -/
def chunk50 {α : Type} : List α → List (List α)
  | [] => []
  | x :: xs => ((x :: xs).take 50) :: chunk50 ((x :: xs).drop 50)
termination_by l => l.length
decreasing_by simp [List.length_drop]; omega

/-- The unique artist IDs gathered from the top-track items, in first-seen
order. -/
def artistIdsOf (items : List TrackItem) : List String :=
  eraseDups (items.flatMap (fun t => (t.artists.getD []).map (fun a => a.id)))

/-- The ID batches the handler sends to /artists. -/
def artistBatchesOf (items : List TrackItem) : List (List String) :=
  chunk50 (artistIdsOf items)

/-- Lookup in `new Map(pairs)` followed by `|| []`: on duplicate keys the
last insertion wins; a missing key yields []. -/
def genresFor (pairs : List (String × List String)) (id : String) :
    List String :=
  match (pairs.reverse).lookup id with
  | some g => g
  | none => []

/-- The projection of the top-track items onto the response shape, joining
each artist with its genres. -/
def enrichedItems (items : List TrackItem)
    (pairs : List (String × List String)) : List OutTrack :=
  items.map (fun t =>
    { id := t.id, name := t.name, uri := t.uri, popularity := t.popularity,
      duration_ms := t.duration_ms, explicit := t.explicit,
      album := ⟨t.album.bind (fun al => al.id), t.album.bind (fun al => al.name),
        t.album.bind (fun al => al.release_date)⟩,
      artists := (t.artists.getD []).map
        (fun a => ⟨a.id, a.name, genresFor pairs a.id⟩) })

/-- The core of GET /enriched/top-tracks after the top-tracks fetch:
deduplicate the artist IDs, fetch them in batches of at most 50 through
`artistsCall` (one `sfetch` per batch, taking the comma-joined IDs and
returning the response's `artists` field, absent modelled as none), build
the genre map and project the items. -/
def enrichedCore (items : List TrackItem)
    (artistsCall : String → Except String (Option (List ArtistFull))) :
    Except String (List OutTrack) := do
  let chunks := artistBatchesOf items
  let batchedParts ← chunks.mapM
    (fun c => artistsCall (String.intercalate ("," ) c))
  let batched := (batchedParts.map (fun o => o.getD [])).flatten
  let pairs := batched.map (fun a => (a.id, a.genres.getD []))
  pure (enrichedItems items pairs)

/-- GET /enriched/top-tracks: top-tracks through `sfetch`, then
`enrichedCore`; any throw becomes a 500 with `{error: e?.message || "failed"}`. -/
def enrichedRoute (accessCookie refreshCookie : Option String)
    (upTop : Nat → HttpResp TopJson) (refreshResp : HttpResp TokenJson)
    (artistsCall : String → Except String (Option (List ArtistFull))) :
    ServerResponse :=
  match (do
      let top ← (sfetch accessCookie refreshCookie upTop refreshResp).result
      let items ←
        match top.items with
        | some l => Except.ok l
        | none =>
          Except.error ("Cannot read properties of undefined (reading flatMap)")
      enrichedCore items artistsCall) with
  | .ok out => ⟨200, .jsonTracks out⟩
  | .error m => ⟨500, .jsonErr (if m = "" then "failed" else m)⟩

/-- `t.items?.length || 0`. -/
def countOf (t : TopJson) : Nat :=
  match t.items with
  | some l => l.length
  | none => 0

/-- GET /debug/topcounts: three top-tracks fetches (the code runs them under
Promise.all; failures are sequenced here in program order), counts on
success, 500 with `{error: e.message || "failed"}` on a throw. -/
def topcountsRoute (accessCookie refreshCookie : Option String)
    (upS upM upL : Nat → HttpResp TopJson)
    (rrS rrM rrL : HttpResp TokenJson) : ServerResponse :=
  match (do
      let s ← (sfetch accessCookie refreshCookie upS rrS).result
      let m ← (sfetch accessCookie refreshCookie upM rrM).result
      let l ← (sfetch accessCookie refreshCookie upL rrL).result
      Except.ok (s, m, l) : Except String (TopJson × TopJson × TopJson)) with
  | .ok (s, m, l) => ⟨200, .jsonCounts (countOf s) (countOf m) (countOf l)⟩
  | .error m => ⟨500, .jsonErr (if m = "" then "failed" else m)⟩

/-! ## compactSnapshot and POST /chat (chat.ts) -/

/-- `topN(a, n)`: the first n elements when `a` is an array, else []. -/
def topN (a : JsVal) (n : Nat) : List JsVal :=
  match a with
  | .arr l => l.take n
  | _ => []

/-- The projection of one top-track entry: `{id, name, uri, artists}`;
reading a property of a null/undefined entry throws. -/
def projTrack (t : JsVal) : Except String JsVal := do
  let i ← getField t ("id")
  let nm ← getField t ("name")
  let u ← getField t ("uri")
  let a ← getField t ("artists")
  pure (.obj [("id", i), ("name", nm), ("uri", u), ("artists", a)])

/-- The projection of one top-artist entry: `{id, name, genres, popularity}`. -/
def projArtist (a : JsVal) : Except String JsVal := do
  let i ← getField a ("id")
  let nm ← getField a ("name")
  let g ← getField a ("genres")
  let p ← getField a ("popularity")
  pure (.obj [("id", i), ("name", nm), ("genres", g), ("popularity", p)])

/-- The projection of one recently-played entry:
`{played_at, id, name, artists}`. -/
def projRecent (r : JsVal) : Except String JsVal := do
  let pa ← getField r ("played_at")
  let i ← getField r ("id")
  let nm ← getField r ("name")
  let a ← getField r ("artists")
  pure (.obj [("played_at", pa), ("id", i), ("name", nm), ("artists", a)])

/-- The profile part of compactSnapshot: `s?.profile && {id, displayName,
country}` — the three fields when the profile is truthy, else the falsy
value itself. -/
def compactProfile (s : JsVal) : Except String JsVal :=
  let p := optChain s ("profile")
  if jsTruthy p then do
    let i ← getField p ("id")
    let dn ← getField p ("displayName")
    let co ← getField p ("country")
    pure (JsVal.obj [("id", i), ("displayName", dn), ("country", co)])
  else pure p

/-- `compactSnapshot` (chat.ts): truncate the three lists to 25/20/20 and
project their entries; pass `generatedAt` through and keep the profile part
as `compactProfile`. -/
def compactSnapshot (s : JsVal) : Except String JsVal := do
  let gen := optChain s ("generatedAt")
  let prof ← compactProfile s
  let tts ← (topN (jsOr (optChain s ("topTracks")) (.arr [])) 25).mapM projTrack
  let tas ← (topN (jsOr (optChain s ("topArtists")) (.arr [])) 20).mapM projArtist
  let rcs ← (topN (jsOr (optChain s ("recent")) (.arr [])) 20).mapM projRecent
  pure (.obj [("generatedAt", gen), ("profile", prof),
    ("topTracks", .arr tts), ("topArtists", .arr tas), ("recent", .arr rcs)])

/-- Whether a value is an object whose keys are exactly `keys`, in order. -/
def hasKeys (keys : List String) : JsVal → Bool
  | .obj fs => fs.map Prod.fst == keys
  | _ => false

/-- The user-message template of POST /chat, around the stringified compact
snapshot and the interpolated question. -/
def chatUserContent (snapshotJson question : String) : String :=
  "SNAPSHOT:\n```json\n" ++ snapshotJson ++ "\n```\nQUESTION: " ++ question

/-- The upstream chat-endpoint exchange: status, raw text, and what
JSON.parse makes of that text (`.error` models a parse throw). -/
structure ChatUpstream where
  status : Nat
  text : String
  parsed : Except String JsVal

/-- How POST /chat ends. -/
inductive ChatOutcome where
  | badRequest
  | missingKey
  | upstreamErr (status : Nat) (text : String)
  | answered (answer : JsVal)
  | threw (m : String)

/-- One POST /chat request: its outcome and, when the upstream request was
sent, the user-message content it carried. -/
structure ChatResult where
  outcome : ChatOutcome
  sentContent : Option String

/-- `json.choices?.[0]?.message?.content ?? ""`: `json.choices` itself can
throw (json may be null), the rest of the chain is undefined-safe, and
`?? ""` replaces only null/undefined. -/
def answerOf (j : JsVal) : Except String JsVal := do
  let ch ← getField j ("choices")
  match ch with
  | .null => pure (.str "")
  | JsVal.undef => pure (.str "")
  | ch =>
    let e0 :=
      match ch with
      | .arr (x :: _) => x
      | .str s =>
        match s.data with
        | c :: _ => .str (String.mk [c])
        | [] => JsVal.undef
      | .obj fs => (fs.lookup ("0")).getD JsVal.undef
      | _ => JsVal.undef
    match e0 with
    | .null => pure (.str "")
    | JsVal.undef => pure (.str "")
    | e0 =>
      let msg := getFieldPure e0 ("message")
      match msg with
      | .null => pure (.str "")
      | JsVal.undef => pure (.str "")
      | msg =>
        let c := getFieldPure msg ("content")
        match c with
        | .null => pure (.str "")
        | JsVal.undef => pure (.str "")
        | c => pure c

/-- POST /chat (chat.ts): validate question/snapshot and the API key,
compact the snapshot, send the templated message upstream, mirror a non-ok
upstream status, otherwise parse and answer; any throw is caught as a 500. -/
def chatPost (body : JsVal) (apiKey : Option String)
    (up : String → ChatUpstream) : ChatResult :=
  let b := jsOr body (.obj [])
  let question := getFieldPure b ("question")
  let snapshot := getFieldPure b ("snapshot")
  if !jsTruthy question || !jsTruthy snapshot then ⟨.badRequest, none⟩
  else if !jsTruthyStr apiKey then ⟨.missingKey, none⟩
  else
    match compactSnapshot snapshot with
    | .error m => ⟨.threw m, none⟩
    | .ok slim =>
      let content := chatUserContent (jsonStringify slim) (jsToDisplay question)
      let r := up content
      if !(200 ≤ r.status && r.status < 300) then
        ⟨.upstreamErr r.status r.text, some content⟩
      else
        match r.parsed with
        | .error m => ⟨.threw m, some content⟩
        | .ok j =>
          match answerOf j with
          | .error m => ⟨.threw m, some content⟩
          | .ok ans => ⟨.answered ans, some content⟩

/-! ## The registered routes (method, path)

`serverIndexRoutes` lists the registrations of server/index.ts in program
order, the /chat mount of chat.ts expanded as Express serves it
(`router.get("/test")` at /chat/test, `router.post("/")` at /chat).
`srcIndexRoutes` and `srcServerRoutes` are the registrations of the two
legacy files src/index.ts and src/Server.ts. -/

/-- The routes of the main server entry (server/index.ts + chat.ts). -/
def serverIndexRoutes : List (String × String) :=
  [("GET", "/auth/login"), ("GET", "/auth/callback"), ("GET", "/debug/tokens"),
   ("GET", "/spotify/me"), ("GET", "/spotify/top-tracks"),
   ("GET", "/spotify/top-artists"), ("GET", "/spotify/recent"),
   ("GET", "/enriched/top-tracks"), ("GET", "/debug/topcounts"),
   ("GET", "/chat/test"), ("POST", "/chat")]

/-- The routes of the legacy entry src/index.ts. -/
def srcIndexRoutes : List (String × String) :=
  [("GET", "/"), ("GET", "/auth/login"), ("GET", "/auth/callback"),
   ("GET", "/auth/refresh"), ("GET", "/spotify/me"),
   ("GET", "/spotify/top-tracks"), ("GET", "/spotify/top-artists"),
   ("GET", "/spotify/recent"), ("GET", "/spotify/features")]

/-- The routes of src/Server.ts. -/
def srcServerRoutes : List (String × String) :=
  [("GET", "/hi")]

/-- Every route registered anywhere in the repository's source files. -/
def allRepoRoutes : List (String × String) :=
  serverIndexRoutes ++ srcIndexRoutes ++ srcServerRoutes

/-- The eleven routes the specification lists as the externally observable
HTTP surface. -/
def specListedRoutes : List (String × String) :=
  [("GET", "/auth/login"), ("GET", "/auth/callback"), ("GET", "/spotify/me"),
   ("GET", "/spotify/top-tracks"), ("GET", "/spotify/top-artists"),
   ("GET", "/spotify/recent"), ("GET", "/enriched/top-tracks"),
   ("GET", "/debug/topcounts"), ("GET", "/debug/tokens"),
   ("POST", "/chat"), ("GET", "/chat/test")]

/-! # Helper lemmas -/

theorem except_ok_bind {ε α β : Type} (v : α) (f : α → Except ε β) :
    (Except.ok v >>= f) = f v := rfl

theorem except_error_bind {ε α β : Type} (e : ε) (f : α → Except ε β) :
    ((Except.error e : Except ε α) >>= f) = .error e := rfl

theorem except_pure_eq_ok {ε α : Type} (v : α) : (pure v : Except ε α) = .ok v := rfl

theorem splitChar_of_not_mem (c : Char) (l : List Char) (h : c ∉ l) :
    splitChar c l = [String.mk l] := by
  induction l with
  | nil => rfl
  | cons x xs ih =>
    have hx : ¬ x = c := fun e => h (e ▸ List.mem_cons_self x xs)
    have hxs : c ∉ xs := fun hm => h (List.mem_cons_of_mem _ hm)
    simp only [splitChar, if_neg hx, ih hxs]
    rfl

theorem splitChar_sep (c : Char) (a b : List Char) (ha : c ∉ a) :
    splitChar c (a ++ c :: b) = String.mk a :: splitChar c b := by
  induction a with
  | nil => simp [splitChar]
  | cons x xs ih =>
    have hx : ¬ x = c := fun e => ha (e ▸ List.mem_cons_self x xs)
    have hxs : c ∉ xs := fun hm => ha (List.mem_cons_of_mem _ hm)
    rw [List.cons_append]
    simp only [splitChar]
    rw [ih hxs, if_neg hx]
    rfl

theorem string_ne_empty_of_data_ne (s : String) (h : s.data ≠ []) : s ≠ "" :=
  fun he => h (by subst he; rfl)

/-- C1: round-trip of the stateless signed OAuth state — for any runtime
whose HMAC digest and base64url body are dot-free and non-empty and whose
JSON.parse turns the decoded re-encoded stringified payload back into the
payload's JS object `payloadJs p` (true of the real Node runtime),
verifying a freshly signed payload before its expiry returns exactly that
payload. -/
theorem c1_roundtrip
    (hmac : String → String) (jstr : StatePayload → String)
    (b64enc b64dec : String → String)
    (jparse : String → Except String JsVal)
    (p : StatePayload) (now : Int)
    (hparse : jparse (b64dec (b64enc (jstr p))) = .ok (payloadJs p))
    (hbody : b64enc (jstr p) ≠ "")
    (hbdot : '.' ∉ (b64enc (jstr p)).data)
    (hsig : hmac (b64enc (jstr p)) ≠ "")
    (hsdot : '.' ∉ (hmac (b64enc (jstr p))).data)
    (hnow : now ≤ p.exp) :
    verifyState hmac jparse b64dec now (some (signState hmac jstr b64enc p)) =
      .ok (some (payloadJs p)) := by
  have hdata : (signState hmac jstr b64enc p).data =
      (b64enc (jstr p)).data ++ '.' :: (hmac (b64enc (jstr p))).data := by
    simp [signState, String.data_append]
  have hne : signState hmac jstr b64enc p ≠ "" := by
    apply string_ne_empty_of_data_ne
    rw [hdata]
    simp
  have hsplit : splitChar '.' (signState hmac jstr b64enc p).data =
      b64enc (jstr p) :: [hmac (b64enc (jstr p))] := by
    rw [hdata, splitChar_sep '.' _ _ hbdot,
      splitChar_of_not_mem '.' _ hsdot]
  rw [verifyState]
  simp only [if_neg hne, hsplit]
  have hor : ¬ (b64enc (jstr p) = "" ∨ hmac (b64enc (jstr p)) = "") := by
    intro hc
    rcases hc with hc | hc
    · exact hbody hc
    · exact hsig hc
  rw [if_neg hor]
  have htse : timingSafeEqual (hmac (b64enc (jstr p))) (hmac (b64enc (jstr p))) =
      .ok true := by
    rw [timingSafeEqual]
    simp
  rw [htse, except_ok_bind]
  simp only [Bool.not_true, Bool.false_eq_true, if_false, hparse]
  have hexp : getField (payloadJs p) ("exp") = .ok (.num p.exp) := by
    cases hrt : p.rt <;> simp [payloadJs, getField, getFieldPure, hrt, List.lookup]
  rw [hexp, except_ok_bind]
  have hgt : jsGreaterNum now (.num p.exp) = false := by
    simp only [jsGreaterNum, jsToNum]
    simp only [decide_eq_false_iff_not]
    omega
  rw [hgt]
  simp only [Bool.false_eq_true, if_false]
  rfl

theorem c1_roundtrip_witness :
    verifyState (fun _ => "SIG")
      (fun s => if s = "J" then .ok (payloadJs ⟨"n", some ("r"), 100⟩)
        else .error ("SyntaxError"))
      (fun s => s) 0
      (some (signState (fun _ => "SIG") (fun _ => "J") (fun s => s)
        ⟨"n", some ("r"), 100⟩)) =
      .ok (some (payloadJs ⟨"n", some ("r"), 100⟩)) :=
  c1_roundtrip (fun _ => "SIG") (fun _ => "J") (fun s => s) (fun s => s)
    (fun s => if s = "J" then .ok (payloadJs ⟨"n", some ("r"), 100⟩)
      else .error ("SyntaxError"))
    ⟨"n", some ("r"), 100⟩ 0 (by rfl) (by decide) (by decide) (by decide) (by decide)
    (by decide)

/-- C8 counterexample: on the state "a.b" (signature of byte length 1 while
the digest has byte length 3 in this instantiation, 43 with the real
HMAC-base64url), verifyState raises instead of returning null. -/
theorem c8_counterexample :
    verifyState (fun _ => "SIG") (fun _ => Except.error ("SyntaxError"))
      (fun s => s) 0 (some ("a.b")) =
      .error ("Input buffers must have the same byte length") := by
  rfl

/-- C8 amended: verifyState raises exactly when the signature part's byte
length differs from the expected digest's (the timingSafeEqual
RangeError), or the signature matches and either JSON.parse fails on the
decoded body (SyntaxError) or the parsed body is a value whose `exp`
property read throws — for JSON.parse output, exactly JSON null (TypeError
at `payload.exp`); on every other input it returns null or a payload
without raising. -/
theorem c8_verifyState_total_except_raises
    (hmac : String → String) (jparse : String → Except String JsVal)
    (b64dec : String → String) (now : Int) (state : Option String) :
    exceptOk (verifyState hmac jparse b64dec now state) = false
    ↔ (∃ s body sig rest, state = some s ∧ s ≠ ""
        ∧ splitChar '.' s.data = body :: sig :: rest ∧ ¬(body = "" ∨ sig = "")
        ∧ ((hmac body).utf8ByteSize ≠ sig.utf8ByteSize
           ∨ (sig = hmac body
              ∧ (exceptOk (jparse (b64dec body)) = false
                 ∨ ∃ v, jparse (b64dec body) = .ok v
                     ∧ exceptOk (getField v ("exp")) = false)))) := by
  match state with
  | none =>
    simp [verifyState, exceptOk]
  | some s =>
    rw [verifyState]
    simp only [Option.some.injEq]
    split
    · rename_i hs
      subst hs
      simp [exceptOk]
    rename_i hs
    split
    · rename_i hsp
      simp [exceptOk, hsp, hs]
    · rename_i hsp
      simp [exceptOk, hsp, hs]
    rename_i body sig rest hsp
    split
    · rename_i hbs
      simp [exceptOk, hsp, hs]
      intro h1 h2
      rcases hbs with h | h
      · exact absurd h h1
      · exact absurd h h2
    rename_i hbs
    simp only [timingSafeEqual]
    split
    · rename_i hsz
      rw [except_error_bind]
      exact ⟨fun _ => ⟨s, body, sig, rest, rfl, hs, hsp, hbs,
          Or.inl (Ne.symm hsz)⟩,
        fun _ => rfl⟩
    rename_i hsz
    rw [except_ok_bind]
    have hcore : ∀ Q : String → String → Prop,
        ((∃ s2 body2 sig2 rest2, s = s2 ∧ s2 ≠ ""
          ∧ splitChar '.' s2.data = body2 :: sig2 :: rest2
          ∧ ¬(body2 = "" ∨ sig2 = "")
          ∧ ((hmac body2).utf8ByteSize ≠ sig2.utf8ByteSize ∨ Q body2 sig2))
         ↔ Q body sig) := by
      intro Q
      constructor
      · rintro ⟨s2, body2, sig2, rest2, rfl, -, hsp2, -, hd⟩
        rw [hsp] at hsp2
        injection hsp2 with h1 hsp2
        injection hsp2 with h2 _
        subst h1
        subst h2
        rcases hd with hd | hd
        · exact absurd (fun h => hd h.symm) hsz
        · exact hd
      · intro hq
        exact ⟨s, body, sig, rest, rfl, hs, hsp, hbs, Or.inr hq⟩
    by_cases heq : sig == hmac body
    · rw [heq]
      simp only [Bool.not_true, Bool.false_eq_true, if_false]
      match hjp : jparse (b64dec body) with
      | .error m =>
        exact ⟨fun _ => ⟨s, body, sig, rest, rfl, hs, hsp, hbs,
            Or.inr ⟨eq_of_beq heq, Or.inl (by rw [hjp]; rfl)⟩⟩,
          fun _ => rfl⟩
      | .ok payload =>
        cases he : getField payload ("exp") with
        | error m =>
          refine ⟨fun _ => ⟨s, body, sig, rest, rfl, hs, hsp, hbs,
              Or.inr ⟨eq_of_beq heq,
                Or.inr ⟨payload, hjp, by rw [he]; rfl⟩⟩⟩,
            fun _ => ?_⟩
          show exceptOk (getField payload ("exp") >>= fun e =>
            if jsGreaterNum now e then pure none else pure (some payload)) = false
          rw [he, except_error_bind]
          rfl
        | ok e =>
          have hlhs : exceptOk
              ((getField payload ("exp") : Except String JsVal) >>= fun e =>
                if jsGreaterNum now e then pure none
                else pure (some payload)) = true := by
            rw [he, except_ok_bind]
            by_cases hg : jsGreaterNum now e = true
            · rw [if_pos hg]
              rfl
            · rw [if_neg hg]
              rfl
          rw [show exceptOk
              (match (Except.ok payload : Except String JsVal) with
              | Except.error m => (Except.error m : Except String (Option JsVal))
              | Except.ok payload => do
                let e ← getField payload ("exp")
                if jsGreaterNum now e then pure none
                else pure (some payload)) = true from hlhs]
          simp only [Bool.true_eq_false, false_iff]
          rw [hcore (fun b g => g = hmac b
            ∧ (exceptOk (jparse (b64dec b)) = false
               ∨ ∃ v, jparse (b64dec b) = .ok v
                   ∧ exceptOk (getField v ("exp")) = false))]
          rintro ⟨-, hbad | ⟨v, hv, hvf⟩⟩
          · rw [hjp] at hbad
            exact absurd hbad (by simp [exceptOk])
          · rw [hjp] at hv
            injection hv with hv
            subst hv
            rw [he] at hvf
            exact absurd hvf (by simp [exceptOk])
    · rw [Bool.not_eq_true] at heq
      rw [heq]
      constructor
      · intro h
        simp [exceptOk, except_pure_eq_ok] at h
      · intro hrhs
        rw [hcore (fun b g => g = hmac b
          ∧ (exceptOk (jparse (b64dec b)) = false
             ∨ ∃ v, jparse (b64dec b) = .ok v
                 ∧ exceptOk (getField v ("exp")) = false))] at hrhs
        obtain ⟨hsige, -⟩ := hrhs
        rw [hsige] at heq
        simp at heq

/-- C2: every sfetch call fetches the upstream resource at most twice; a
second fetch happens exactly when the first response is a 401 and the
refresh yields a (truthy, hence non-null) token, and it uses that token;
on a 401 with no token, sfetch throws "Unauthorized and refresh failed";
no other first status leads to a second fetch. -/
theorem c2_sfetch_single_retry_on_401 :
    ∀ (α : Type) (access refreshCookie : Option String)
      (up : Nat → HttpResp α) (rr : HttpResp TokenJson),
    (sfetch access refreshCookie up rr).tokensUsed.length ≤ 2
    ∧ ((sfetch access refreshCookie up rr).tokensUsed.length = 2 ↔
        (up 0).status = 401
        ∧ (jsTruthyOpt (refreshAccessToken refreshCookie rr).1).isSome = true)
    ∧ ((up 0).status = 401
        ∧ jsTruthyOpt (refreshAccessToken refreshCookie rr).1 = none →
        (sfetch access refreshCookie up rr).result =
          .error ("Unauthorized and refresh failed")
        ∧ (sfetch access refreshCookie up rr).tokensUsed = [access])
    ∧ ((up 0).status ≠ 401 →
        (sfetch access refreshCookie up rr).tokensUsed = [access])
    ∧ (∀ a, (up 0).status = 401 →
        jsTruthyOpt (refreshAccessToken refreshCookie rr).1 = some a →
        (sfetch access refreshCookie up rr).tokensUsed = [access, some a]) := by
  intro α access rc up rr
  by_cases h401 : (up 0).status = 401
  · cases htok : jsTruthyOpt (refreshAccessToken rc rr).1 with
    | none =>
      simp [sfetch, h401, htok]
    | some a =>
      by_cases hok : respOk (up 1)
      · simp [sfetch, h401, htok, hok]
      · simp [sfetch, h401, htok, hok]
  · by_cases hok : respOk (up 0)
    · simp [sfetch, h401, hok]
    · simp [sfetch, h401, hok]

/-- C10: /debug/tokens answers exactly the two presence booleans and sets no
cookie; requests whose cookies agree on truthiness of the two tokens get
identical responses, whatever the token strings are. -/
theorem c10_debug_tokens_noninterference :
    ∀ a1 r1 a2 r2 : Option String,
    ((jsTruthyStr a1 = jsTruthyStr a2 ∧ jsTruthyStr r1 = jsTruthyStr r2) →
      debugTokens a1 r1 = debugTokens a2 r2)
    ∧ (debugTokens a1 r1).2 = []
    ∧ (debugTokens a1 r1).1 =
        ⟨200, .jsonFlags (jsTruthyStr a1) (jsTruthyStr r1)⟩ := by
  intro a1 r1 a2 r2
  refine ⟨fun h => ?_, rfl, rfl⟩
  simp [debugTokens, h.1, h.2]

/-- C3 counterexample: GET /spotify/features is registered by src/index.ts,
a source file of this repository, and is outside the spec's eleven-route
list. -/
theorem c3_counterexample :
    (("GET", "/spotify/features") ∈ allRepoRoutes)
    ∧ (("GET", "/spotify/features") ∉ specListedRoutes) := by
  constructor
  · decide
  · decide

/-- C3 amended: the spec's eleven routes are exactly (a permutation of) the
routes registered by the main server entry server/index.ts with its /chat
mount, and every route registered anywhere in the repository is either in
that list or one of the four legacy registrations GET /, GET /auth/refresh,
GET /spotify/features (src/index.ts) and GET /hi (src/Server.ts). -/
theorem c3_main_entry_routes_match_spec :
    serverIndexRoutes.Perm specListedRoutes
    ∧ (∀ r ∈ allRepoRoutes, r ∈ specListedRoutes
        ∨ r ∈ [("GET", "/"), ("GET", "/auth/refresh"),
               ("GET", "/spotify/features"), ("GET", "/hi")]) := by
  constructor
  · decide
  · decide

/-- C4 counterexample: a 401 whose refresh fails yields a 500 whose body is
the fixed string "Unauthorized and refresh failed", not the upstream
response text — so not every not-ok final response surfaces the upstream
text. -/
theorem c4_counterexample :
    spotifyProxyRoute (some ("tok")) none
      (fun _ => ⟨401, "upstream text", "j"⟩) ⟨500, "", ⟨none, none⟩⟩ =
      ⟨500, .text ("Unauthorized and refresh failed")⟩
    ∧ ("Unauthorized and refresh failed" : String) ≠ "upstream text" := by
  constructor
  · rfl
  · decide

/-- C4 amended: on a failing upstream exchange the proxied handlers respond
500 with the thrown error's message — the final response's text (with the
fallbacks "Error" / "failed" when that text is empty) when a fetch response
is not ok, and the fixed string "Unauthorized and refresh failed" when the
first response is 401 and the refresh yields no token; the JSON handlers
(/enriched/top-tracks, /debug/topcounts) wrap the message as
`{error: message}`. -/
theorem c4_upstream_failures_become_500 :
    (∀ (access refreshCookie : Option String) (up : Nat → HttpResp String)
       (rr : HttpResp TokenJson),
      ((up 0).status ≠ 401 → respOk (up 0) = false →
        spotifyProxyRoute access refreshCookie up rr =
          ⟨500, .text (if (up 0).body = "" then "Error" else (up 0).body)⟩)
      ∧ (∀ a, (up 0).status = 401 →
          jsTruthyOpt (refreshAccessToken refreshCookie rr).1 = some a →
          respOk (up 1) = false →
          spotifyProxyRoute access refreshCookie up rr =
            ⟨500, .text (if (up 1).body = "" then "Error" else (up 1).body)⟩)
      ∧ ((up 0).status = 401 →
          jsTruthyOpt (refreshAccessToken refreshCookie rr).1 = none →
          spotifyProxyRoute access refreshCookie up rr =
            ⟨500, .text ("Unauthorized and refresh failed")⟩))
    ∧ (∀ (access refreshCookie : Option String)
         (upTop : Nat → HttpResp TopJson) (rr : HttpResp TokenJson)
         (ac : String → Except String (Option (List ArtistFull))) (m : String),
        (sfetch access refreshCookie upTop rr).result = .error m →
        enrichedRoute access refreshCookie upTop rr ac =
          ⟨500, .jsonErr (if m = "" then "failed" else m)⟩)
    ∧ (∀ (access refreshCookie : Option String)
         (upS upM upL : Nat → HttpResp TopJson)
         (rrS rrM rrL : HttpResp TokenJson) (m : String),
        ((sfetch access refreshCookie upS rrS).result = .error m
         ∨ (∃ vs, (sfetch access refreshCookie upS rrS).result = .ok vs
            ∧ (sfetch access refreshCookie upM rrM).result = .error m)
         ∨ (∃ vs vm, (sfetch access refreshCookie upS rrS).result = .ok vs
            ∧ (sfetch access refreshCookie upM rrM).result = .ok vm
            ∧ (sfetch access refreshCookie upL rrL).result = .error m)) →
        topcountsRoute access refreshCookie upS upM upL rrS rrM rrL =
          ⟨500, .jsonErr (if m = "" then "failed" else m)⟩) := by
  refine ⟨fun access rc up rr => ⟨?_, ?_, ?_⟩, ?_, ?_⟩
  · intro h401 hok
    simp [spotifyProxyRoute, sfetch, h401, hok]
  · intro a h401 htok hok
    simp [spotifyProxyRoute, sfetch, h401, htok, hok]
  · intro h401 htok
    simp [spotifyProxyRoute, sfetch, h401, htok]
  · intro access rc upTop rr ac m hsf
    simp [enrichedRoute, hsf, except_error_bind]
  · intro access rc upS upM upL rrS rrM rrL m hcase
    rcases hcase with hS | ⟨vs, hS, hM⟩ | ⟨vs, vm, hS, hM, hL⟩
    · simp [topcountsRoute, hS, except_error_bind]
    · simp [topcountsRoute, hS, hM, except_ok_bind, except_error_bind]
    · simp [topcountsRoute, hS, hM, hL, except_ok_bind, except_error_bind]

/-- C7 counterexample: with the code query parameter absent and a malformed
state ("a.b", signature byte length differing from the digest's), the
callback does not respond 400 — verifyState raises first, so the handler
throws. -/
theorem c7_counterexample :
    (authCallback (fun _ => "SIG") (fun _ => Except.error ("SyntaxError"))
        (fun s => s) 0 none (some ("a.b"))
        ⟨200, "", ⟨some ("A"), some ("R")⟩⟩).outcome =
      .threw ("Input buffers must have the same byte length")
    ∧ CallbackOutcome.threw ("Input buffers must have the same byte length") ≠
        CallbackOutcome.badRequest := by
  constructor
  · rfl
  · intro h
    exact CallbackOutcome.noConfusion h

/-- C7 amended: the callback responds 400 exactly when verifyState returns
(without raising) and either the code is missing/empty or the verdict is
falsy — null, or (only reachable with a signature-matching body) a falsy
payload value; on a 400 no exchange request is sent and no cookie is set.
States on which verifyState raises make the handler throw instead. -/
theorem c7_callback_400_characterization :
    ∀ (hmac : String → String) (jparse : String → Except String JsVal)
      (b64dec : String → String) (now : Int) (code state : Option String)
      (xresp : HttpResp TokenJson),
    ((authCallback hmac jparse b64dec now code state xresp).outcome =
        .badRequest ↔
      ∃ v, verifyState hmac jparse b64dec now state = .ok v
        ∧ (jsTruthyStr code = false ∨ jsTruthyVerdict v = false))
    ∧ ((authCallback hmac jparse b64dec now code state xresp).outcome =
        .badRequest →
        (authCallback hmac jparse b64dec now code state xresp).exchanged = false
        ∧ (authCallback hmac jparse b64dec now code state xresp).cookiesSet = []) := by
  intro hmac jparse b64dec now code state xresp
  cases hv : verifyState hmac jparse b64dec now state with
  | error m => simp [authCallback, hv]
  | ok v =>
    by_cases hc : (!jsTruthyStr code || !jsTruthyVerdict v : Bool)
    · simp only [authCallback, hv, if_pos hc]
      constructor
      · simp only [true_iff]
        refine ⟨v, rfl, ?_⟩
        rcases Bool.or_eq_true_iff.mp hc with h | h
        · exact Or.inl (by simpa using h)
        · exact Or.inr (by simpa using h)
      · intro _
        trivial
    · simp only [authCallback, hv, if_neg hc]
      have hrhs : ¬ ∃ v2, (Except.ok v : Except String (Option JsVal)) =
          .ok v2 ∧ (jsTruthyStr code = false ∨ jsTruthyVerdict v2 = false) := by
        rintro ⟨v2, hv2, hd⟩
        have : v2 = v := by
          injection hv2 with h
          exact h.symm
        subst this
        apply hc
        rcases hd with h | h
        · simp [h]
        · simp [h]
      simp only [Bool.or_eq_true, Bool.not_eq_true, not_or] at hc
      by_cases hx : respOk xresp
      · simp [hx, hrhs]
        exact ⟨by simpa [Bool.not_eq_true] using hc.1,
          by simpa [Bool.not_eq_true] using hc.2⟩
      · simp [hx, hrhs]
        exact ⟨by simpa [Bool.not_eq_true] using hc.1,
          by simpa [Bool.not_eq_true] using hc.2⟩

theorem exceptOk_exists {ε α : Type} (a : Except ε α) :
    exceptOk a = true ↔ ∃ x, a = .ok x := by
  cases a <;> simp [exceptOk]

theorem exceptOk_bind_iff {ε α β : Type} (a : Except ε α) (f : α → Except ε β) :
    exceptOk (a >>= f) = true ↔ ∃ x, a = .ok x ∧ exceptOk (f x) = true := by
  cases a with
  | error e => simp [except_error_bind, exceptOk]
  | ok v => simp [except_ok_bind]

theorem mapM_ok_of_forall {ε α β : Type} (f : α → Except ε β) :
    ∀ l : List α, (∀ x ∈ l, exceptOk (f x) = true) → exceptOk (l.mapM f) = true := by
  intro l h
  induction l with
  | nil => rfl
  | cons x xs ih =>
    rw [List.mapM_cons]
    have hx := h x (List.mem_cons_self x xs)
    obtain ⟨v, hv⟩ := (exceptOk_exists (f x)).mp hx
    have hxs := ih (fun y hy => h y (List.mem_cons_of_mem _ hy))
    obtain ⟨vs, hvs⟩ := (exceptOk_exists (xs.mapM f)).mp hxs
    rw [hv, except_ok_bind, hvs, except_ok_bind]
    rfl

theorem mapM_ok_forall₂ {ε α β : Type} (f : α → Except ε β) :
    ∀ (l : List α) (r : List β), l.mapM f = .ok r →
      List.Forall₂ (fun a b => f a = .ok b) l r := by
  intro l
  induction l with
  | nil =>
    intro r h
    have : r = [] := by
      have h0 : (List.mapM f [] : Except ε (List β)) = .ok [] := rfl
      rw [h0] at h
      injection h with h
      exact h.symm
    subst this
    exact List.Forall₂.nil
  | cons x xs ih =>
    intro r h
    rw [List.mapM_cons] at h
    cases hv : f x with
    | error e => rw [hv, except_error_bind] at h; cases h
    | ok v =>
      rw [hv, except_ok_bind] at h
      cases hvs : xs.mapM f with
      | error e => rw [hvs, except_error_bind] at h; cases h
      | ok vs =>
        rw [hvs, except_ok_bind] at h
        have : v :: vs = r := by
          injection h with h
        subst this
        exact List.Forall₂.cons hv (ih vs hvs)

theorem forall₂_mem_right {α β : Type} {R : α → β → Prop} :
    ∀ {l : List α} {r : List β}, List.Forall₂ R l r → ∀ b ∈ r, ∃ a ∈ l, R a b := by
  intro l r h
  induction h with
  | nil => intro b hb; cases hb
  | cons hx hrest ih =>
    intro b hb
    rcases List.mem_cons.mp hb with hb | hb
    · subst hb
      exact ⟨_, List.mem_cons_self _ _, hx⟩
    · obtain ⟨a, ha, hr⟩ := ih b hb
      exact ⟨a, List.mem_cons_of_mem _ ha, hr⟩

theorem getField_ok_of_truthy (v : JsVal) (k : String) (h : jsTruthy v = true) :
    getField v k = .ok (getFieldPure v k) := by
  cases v <;> first | rfl | simp [jsTruthy] at h

theorem projTrack_ok (t : JsVal) (h1 : t ≠ .null) (h2 : t ≠ JsVal.undef) :
    exceptOk (projTrack t) = true := by
  cases t <;>
    simp [projTrack, getField, except_ok_bind, except_pure_eq_ok, exceptOk] at h1 h2 ⊢

theorem projArtist_ok (a : JsVal) (h1 : a ≠ .null) (h2 : a ≠ JsVal.undef) :
    exceptOk (projArtist a) = true := by
  cases a <;>
    simp [projArtist, getField, except_ok_bind, except_pure_eq_ok, exceptOk] at h1 h2 ⊢

theorem projRecent_ok (r : JsVal) (h1 : r ≠ .null) (h2 : r ≠ JsVal.undef) :
    exceptOk (projRecent r) = true := by
  cases r <;>
    simp [projRecent, getField, except_ok_bind, except_pure_eq_ok, exceptOk] at h1 h2 ⊢

theorem exceptOk_ok {ε α : Type} (v : α) : exceptOk (.ok v : Except ε α) = true := rfl

theorem exceptOk_ite_ok {ε α : Type} (c : Prop) [Decidable c] (a b : α) :
    exceptOk (if c then (Except.ok a : Except ε α) else .ok b) = true := by
  split <;> rfl

theorem compactProfile_ok (s : JsVal) : exceptOk (compactProfile s) = true := by
  rw [compactProfile]
  cases hq : optChain s ("profile") <;>
    simp [jsTruthy, getField, except_ok_bind, except_pure_eq_ok, exceptOk_ok,
      exceptOk_ite_ok]

/-- C9 counterexample: compactSnapshot throws on a snapshot whose topTracks
array contains null — `t.id` is a property read on null. -/
theorem c9_counterexample :
    compactSnapshot (.obj [("topTracks", .arr [.null])]) =
      .error ("Cannot read properties of null (reading id)") := by
  rfl

/-- C9 amended: compactSnapshot is total — null, undefined, missing or
non-array topTracks/topArtists/recent fields and a missing profile are all
handled — except when a (taken) element of one of the three arrays is null
or undefined, where the projection's property read throws. -/
theorem c9_compactSnapshot_total_unless_null_entries
    (s : JsVal)
    (h1 : ∀ v ∈ topN (jsOr (optChain s ("topTracks")) (.arr [])) 25,
      v ≠ .null ∧ v ≠ JsVal.undef)
    (h2 : ∀ v ∈ topN (jsOr (optChain s ("topArtists")) (.arr [])) 20,
      v ≠ .null ∧ v ≠ JsVal.undef)
    (h3 : ∀ v ∈ topN (jsOr (optChain s ("recent")) (.arr [])) 20,
      v ≠ .null ∧ v ≠ JsVal.undef) :
    exceptOk (compactSnapshot s) = true := by
  obtain ⟨pv, hprof⟩ := (exceptOk_exists _).mp (compactProfile_ok s)
  obtain ⟨tts, htt⟩ := (exceptOk_exists _).mp
    (mapM_ok_of_forall projTrack _ (fun x hx => projTrack_ok x (h1 x hx).1 (h1 x hx).2))
  obtain ⟨tas, hta⟩ := (exceptOk_exists _).mp
    (mapM_ok_of_forall projArtist _ (fun x hx => projArtist_ok x (h2 x hx).1 (h2 x hx).2))
  obtain ⟨rcs, hrc⟩ := (exceptOk_exists _).mp
    (mapM_ok_of_forall projRecent _ (fun x hx => projRecent_ok x (h3 x hx).1 (h3 x hx).2))
  rw [compactSnapshot, hprof, except_ok_bind, htt, except_ok_bind, hta,
    except_ok_bind, hrc, except_ok_bind]
  rfl

theorem c9_total_witness : exceptOk (compactSnapshot JsVal.null) = true :=
  c9_compactSnapshot_total_unless_null_entries JsVal.null
    (by simp [optChain, jsOr, jsTruthy, topN]) (by simp [optChain, jsOr, jsTruthy, topN])
    (by simp [optChain, jsOr, jsTruthy, topN])

theorem topN_length_le (a : JsVal) (n : Nat) : (topN a n).length ≤ n := by
  cases a <;> simp [topN]

theorem projTrack_shape (t y : JsVal) (h : projTrack t = .ok y) :
    hasKeys ["id", "name", "uri", "artists"] y = true := by
  cases t <;>
    simp [projTrack, getField, except_ok_bind, except_error_bind, except_pure_eq_ok] at h <;>
    (rw [← h]; rfl)

theorem projArtist_shape (a y : JsVal) (h : projArtist a = .ok y) :
    hasKeys ["id", "name", "genres", "popularity"] y = true := by
  cases a <;>
    simp [projArtist, getField, except_ok_bind, except_error_bind, except_pure_eq_ok] at h <;>
    (rw [← h]; rfl)

theorem projRecent_shape (x y : JsVal) (h : projRecent x = .ok y) :
    hasKeys ["played_at", "id", "name", "artists"] y = true := by
  cases x <;>
    simp [projRecent, getField, except_ok_bind, except_error_bind, except_pure_eq_ok] at h <;>
    (rw [← h]; rfl)

/-- C5: compactSnapshot truncates to at most 25 topTracks, 20 topArtists and
20 recent entries, each projected onto its fixed key set; and whenever
POST /chat sends an upstream request, the user message embeds
JSON.stringify of compactSnapshot(snapshot) — not the raw snapshot. -/
theorem c5_compact_truncation_and_chat_sends_compacted :
    (∀ s r, compactSnapshot s = .ok r →
      ∃ gen prof tts tas rcs,
        r = .obj [("generatedAt", gen), ("profile", prof),
          ("topTracks", .arr tts), ("topArtists", .arr tas), ("recent", .arr rcs)]
        ∧ tts.length ≤ 25 ∧ tas.length ≤ 20 ∧ rcs.length ≤ 20
        ∧ (∀ t ∈ tts, hasKeys ["id", "name", "uri", "artists"] t = true)
        ∧ (∀ a ∈ tas, hasKeys ["id", "name", "genres", "popularity"] a = true)
        ∧ (∀ x ∈ rcs, hasKeys ["played_at", "id", "name", "artists"] x = true))
    ∧ (∀ (body : JsVal) (apiKey : Option String) (up : String → ChatUpstream)
         (c : String),
        (chatPost body apiKey up).sentContent = some c →
        ∃ slim,
          compactSnapshot (getFieldPure (jsOr body (.obj [])) ("snapshot")) = .ok slim
          ∧ c = chatUserContent (jsonStringify slim)
              (jsToDisplay (getFieldPure (jsOr body (.obj [])) ("question")))) := by
  constructor
  · intro s r h
    rw [compactSnapshot] at h
    cases hprof : compactProfile s with
    | error e => rw [hprof, except_error_bind] at h; cases h
    | ok prof =>
    rw [hprof, except_ok_bind] at h
    cases htt : (topN (jsOr (optChain s ("topTracks")) (.arr [])) 25).mapM projTrack with
    | error e => rw [htt, except_error_bind] at h; cases h
    | ok tts =>
    rw [htt, except_ok_bind] at h
    cases hta : (topN (jsOr (optChain s ("topArtists")) (.arr [])) 20).mapM projArtist with
    | error e => rw [hta, except_error_bind] at h; cases h
    | ok tas =>
    rw [hta, except_ok_bind] at h
    cases hrc : (topN (jsOr (optChain s ("recent")) (.arr [])) 20).mapM projRecent with
    | error e => rw [hrc, except_error_bind] at h; cases h
    | ok rcs =>
    rw [hrc, except_ok_bind] at h
    have hr : r = .obj [("generatedAt", optChain s ("generatedAt")), ("profile", prof),
        ("topTracks", .arr tts), ("topArtists", .arr tas), ("recent", .arr rcs)] := by
      injection h with h
      exact h.symm
    refine ⟨optChain s ("generatedAt"), prof, tts, tas, rcs, hr, ?_, ?_, ?_, ?_, ?_, ?_⟩
    · have := (mapM_ok_forall₂ projTrack _ _ htt).length_eq
      have h25 := topN_length_le (jsOr (optChain s ("topTracks")) (.arr [])) 25
      omega
    · have := (mapM_ok_forall₂ projArtist _ _ hta).length_eq
      have h20 := topN_length_le (jsOr (optChain s ("topArtists")) (.arr [])) 20
      omega
    · have := (mapM_ok_forall₂ projRecent _ _ hrc).length_eq
      have h20 := topN_length_le (jsOr (optChain s ("recent")) (.arr [])) 20
      omega
    · intro t ht
      obtain ⟨x, _, hfx⟩ := forall₂_mem_right (mapM_ok_forall₂ projTrack _ _ htt) t ht
      exact projTrack_shape x t hfx
    · intro a ha
      obtain ⟨x, _, hfx⟩ := forall₂_mem_right (mapM_ok_forall₂ projArtist _ _ hta) a ha
      exact projArtist_shape x a hfx
    · intro x hx
      obtain ⟨w, _, hfw⟩ := forall₂_mem_right (mapM_ok_forall₂ projRecent _ _ hrc) x hx
      exact projRecent_shape w x hfw
  · intro body apiKey up c h
    simp only [chatPost] at h
    split at h
    · simp at h
    · split at h
      · simp at h
      · split at h
        · simp at h
        · rename_i slim hcs
          refine ⟨slim, hcs, ?_⟩
          split at h
          · injection h with h
            exact h.symm
          · split at h
            · injection h with h
              exact h.symm
            · rename_i j hj
              split at h <;>
                (injection h with h; exact h.symm)

theorem mem_eraseDupsGo {α : Type} [DecidableEq α] (y : α) :
    ∀ (l seen : List α), y ∈ eraseDupsGo seen l ↔ (y ∈ l ∧ y ∉ seen) := by
  intro l
  induction l with
  | nil => intro seen; simp [eraseDupsGo]
  | cons x xs ih =>
    intro seen
    by_cases hx : x ∈ seen
    · rw [show eraseDupsGo seen (x :: xs) = eraseDupsGo seen xs from by
        simp [eraseDupsGo, hx], ih seen]
      constructor
      · rintro ⟨h1, h2⟩
        exact ⟨List.mem_cons_of_mem x h1, h2⟩
      · rintro ⟨h1, h2⟩
        rcases List.mem_cons.mp h1 with rfl | h1
        · exact absurd hx h2
        · exact ⟨h1, h2⟩
    · rw [show eraseDupsGo seen (x :: xs) = x :: eraseDupsGo (x :: seen) xs from by
        simp [eraseDupsGo, hx]]
      simp only [List.mem_cons, ih]
      constructor
      · rintro (rfl | ⟨h1, h2⟩)
        · exact ⟨Or.inl rfl, hx⟩
        · exact ⟨Or.inr h1, fun hs => h2 (Or.inr hs)⟩
      · rintro ⟨h1, h2⟩
        rcases h1 with rfl | h1
        · exact Or.inl rfl
        · by_cases hyx : y = x
          · exact Or.inl hyx
          · exact Or.inr ⟨h1, fun hs => hs.elim hyx h2⟩

theorem nodup_eraseDupsGo {α : Type} [DecidableEq α] :
    ∀ (l seen : List α), (eraseDupsGo seen l).Nodup := by
  intro l
  induction l with
  | nil => intro seen; simp [eraseDupsGo]
  | cons x xs ih =>
    intro seen
    by_cases hx : x ∈ seen
    · rw [show eraseDupsGo seen (x :: xs) = eraseDupsGo seen xs from by
        simp [eraseDupsGo, hx]]
      exact ih seen
    · rw [show eraseDupsGo seen (x :: xs) = x :: eraseDupsGo (x :: seen) xs from by
        simp [eraseDupsGo, hx]]
      refine List.nodup_cons.mpr ⟨?_, ih (x :: seen)⟩
      intro hmem
      exact ((mem_eraseDupsGo x xs (x :: seen)).mp hmem).2 (List.mem_cons_self x seen)

theorem nodup_eraseDups {α : Type} [DecidableEq α] (l : List α) :
    (eraseDups l).Nodup :=
  nodup_eraseDupsGo l []

theorem chunk50_flatten_of_le {α : Type} :
    ∀ (n : Nat) (l : List α), l.length ≤ n → (chunk50 l).flatten = l := by
  intro n
  induction n with
  | zero =>
    intro l h
    have hl : l = [] := List.length_eq_zero.mp (Nat.le_zero.mp h)
    subst hl
    simp [chunk50]
  | succ n ih =>
    intro l h
    cases l with
    | nil => simp [chunk50]
    | cons x xs =>
      rw [show chunk50 (x :: xs) = ((x :: xs).take 50) :: chunk50 ((x :: xs).drop 50)
        from by rw [chunk50]]
      have hd : ((x :: xs).drop 50).length ≤ n := by
        simp only [List.length_drop, List.length_cons]
        simp only [List.length_cons] at h
        omega
      rw [List.flatten_cons, ih _ hd, List.take_append_drop]

theorem chunk50_flatten {α : Type} (l : List α) : (chunk50 l).flatten = l :=
  chunk50_flatten_of_le l.length l (Nat.le_refl _)

theorem chunk50_batch_le {α : Type} :
    ∀ (n : Nat) (l : List α), l.length ≤ n → ∀ b ∈ chunk50 l, b.length ≤ 50 := by
  intro n
  induction n with
  | zero =>
    intro l h
    have hl : l = [] := List.length_eq_zero.mp (Nat.le_zero.mp h)
    subst hl
    simp [chunk50]
  | succ n ih =>
    intro l h
    cases l with
    | nil => simp [chunk50]
    | cons x xs =>
      rw [show chunk50 (x :: xs) = ((x :: xs).take 50) :: chunk50 ((x :: xs).drop 50)
        from by rw [chunk50]]
      intro b hb
      rcases List.mem_cons.mp hb with rfl | hb
      · simp [List.length_take]
      · have hd : ((x :: xs).drop 50).length ≤ n := by
          simp only [List.length_drop, List.length_cons]
          simp only [List.length_cons] at h
          omega
        exact ih _ hd b hb

theorem countP_zero_of_sum_zero (y : String) :
    ∀ L : List (List String), ((L.map (List.count y)).sum = 0) →
      (L.countP (fun b => decide (y ∈ b))) = 0 := by
  intro L
  induction L with
  | nil => intro h; rfl
  | cons b L ih =>
    intro h
    simp only [List.map_cons, List.sum_cons] at h
    have hb : List.count y b = 0 := by omega
    have hL : (L.map (List.count y)).sum = 0 := by omega
    have hnb : y ∉ b := List.count_eq_zero.mp hb
    rw [List.countP_cons]
    simp [hnb, ih hL]

theorem countP_one_of_sum_one (y : String) :
    ∀ L : List (List String), ((L.map (List.count y)).sum = 1) →
      (L.countP (fun b => decide (y ∈ b))) = 1 := by
  intro L
  induction L with
  | nil => intro h; simp at h
  | cons b L ih =>
    intro h
    simp only [List.map_cons, List.sum_cons] at h
    by_cases hb : y ∈ b
    · have h1 : 0 < List.count y b := List.count_pos_iff.mpr hb
      have hL0 : (L.map (List.count y)).sum = 0 := by omega
      rw [List.countP_cons]
      simp [hb, countP_zero_of_sum_zero y L hL0]
    · have hb0 : List.count y b = 0 := List.count_eq_zero.mpr hb
      have hL : (L.map (List.count y)).sum = 1 := by omega
      rw [List.countP_cons]
      simp [hb, ih hL]

/-- C6: in /enriched/top-tracks the gathered artist IDs are deduplicated,
the /artists calls take batches of at most 50 IDs that partition the unique
IDs (each unique ID lands in exactly one batch), and each output artist
carries the genres found for its ID in the batched responses, or [] when
absent. -/
theorem c6_enriched_dedup_and_batching :
    ∀ (items : List TrackItem)
      (artistsCall : String → Except String (Option (List ArtistFull))),
    (artistIdsOf items).Nodup
    ∧ (∀ b ∈ artistBatchesOf items, b.length ≤ 50)
    ∧ (artistBatchesOf items).flatten = artistIdsOf items
    ∧ (∀ y ∈ artistIdsOf items,
        (artistBatchesOf items).countP (fun b => decide (y ∈ b)) = 1)
    ∧ (∀ out, enrichedCore items artistsCall = .ok out →
        ∃ batchedParts,
          (artistBatchesOf items).mapM
              (fun c => artistsCall (String.intercalate ("," ) c)) =
            .ok batchedParts
          ∧ out = enrichedItems items
              (((batchedParts.map (fun o => o.getD [])).flatten).map
                (fun a => (a.id, a.genres.getD [])))
          ∧ (∀ t ∈ out, ∀ oa ∈ t.artists,
              oa.genres = genresFor
                (((batchedParts.map (fun o => o.getD [])).flatten).map
                  (fun a => (a.id, a.genres.getD []))) oa.id)) := by
  intro items artistsCall
  refine ⟨nodup_eraseDups _, ?_, chunk50_flatten _, ?_, ?_⟩
  · exact chunk50_batch_le (artistIdsOf items).length _ (Nat.le_refl _)
  · intro y hy
    have hcount : (artistIdsOf items).count y = 1 :=
      List.count_eq_one_of_mem (nodup_eraseDups _) hy
    have hsum : ((artistBatchesOf items).map (List.count y)).sum = 1 := by
      rw [← List.count_flatten, artistBatchesOf, chunk50_flatten]
      exact hcount
    exact countP_one_of_sum_one y _ hsum
  · intro out hok
    rw [enrichedCore] at hok
    cases hbp : (artistBatchesOf items).mapM
        (fun c => artistsCall (String.intercalate ("," ) c)) with
    | error e => rw [hbp, except_error_bind] at hok; cases hok
    | ok bp =>
      rw [hbp, except_ok_bind] at hok
      have hout : out = enrichedItems items
          (((bp.map (fun o => o.getD [])).flatten).map
            (fun a => (a.id, a.genres.getD []))) := by
        injection hok with hok
        exact hok.symm
      refine ⟨bp, rfl, hout, ?_⟩
      intro t ht oa hoa
      rw [hout] at ht
      obtain ⟨ti, _, rfl⟩ := List.mem_map.mp ht
      obtain ⟨a, _, rfl⟩ := List.mem_map.mp hoa
      rfl
